import Mathlib

set_option maxRecDepth 4000

/-! Verification of the prom remote write storage pipeline of
src/query/storage/promremote/storage.go: per-tenant write queues,
tenant classification, batch writing with retry, startup validation,
and tick-driven flushing, shallowly embedded as Lean functions. -/

/-- Tenant keys are string identifiers (Go: type tenantKey string). -/
abbrev tenantKey := String

/-- Tags of a write query, reduced to a list of name/value pairs. -/
abbrev Tags := List (String × String)

/-- A write query as the pipeline observes it: classification only
reads its tags. -/
structure WriteQuery where
  tags : Tags
deriving DecidableEq

/-- A tenant rule: an opaque tag-matcher predicate (rule.Filter.MatchTags)
together with the tenant it routes to. -/
structure TenantRule where
  Filter : Tags → Bool
  Tenant : tenantKey

/-- Remote write endpoint options; only presence in the endpoints list
matters for the claims settled here. -/
structure EndpointOptions where
  name : String
  address : String

/-- Storage options, with field types taken from their uses in
storage.go; tickDuration models the nullable pointer to a duration. -/
structure Options where
  poolSize : Int
  queueSize : Int
  retries : Int
  tickDuration : Option Int
  endpoints : List EndpointOptions
  tenantDefault : String
  tenantRules : List TenantRule

/-- The per-tenant thread-safe queue (struct WriteQueue); the mutex is
elided since operations are modelled as atomic state transformers. -/
structure WriteQueue where
  t : tenantKey
  capacity : Int
  queries : List WriteQuery
deriving DecidableEq

/-- NewWriteQueue allocates an empty buffer of the given capacity. -/
def NewWriteQueue (t : tenantKey) (capacity : Int) : WriteQueue :=
  { t := t, capacity := capacity, queries := [] }

/-- popUnderLock returns the current buffer and resets to a fresh empty
buffer (capacity and tenant unchanged). -/
def WriteQueue.popUnderLock (wq : WriteQueue) : List WriteQuery × WriteQueue :=
  (wq.queries, { wq with queries := [] })

/-- pop takes the lock and delegates to popUnderLock. -/
def WriteQueue.pop (wq : WriteQueue) : List WriteQuery × WriteQueue :=
  wq.popUnderLock

/-- Len returns the current buffer length under a read lock. -/
def WriteQueue.Len (wq : WriteQueue) : Nat :=
  wq.queries.length

/-- Add: if the buffer length has reached capacity, pop and return the
buffer (the incoming query is not appended); otherwise append the query
and return nil (modelled as none). -/
def WriteQueue.Add (wq : WriteQueue) (query : WriteQuery) :
    Option (List WriteQuery) × WriteQueue :=
  if (wq.queries.length : Int) ≥ wq.capacity then
    (some wq.popUnderLock.1, wq.popUnderLock.2)
  else
    (none, { wq with queries := wq.queries ++ [query] })

/-- Flush pops the queue; the popped data is handed to writeBatch, which
does not touch the queue state. Returns the popped batch and new state. -/
def WriteQueue.Flush (wq : WriteQueue) : List WriteQuery × WriteQueue :=
  wq.pop

/-- One abstract operation on a WriteQueue, for stating the state
invariant over arbitrary call sequences. -/
inductive QueueOp
  | add (q : WriteQuery)
  | pop
  | popUnderLock
  | len
  | flush

/-- State effect of one queue operation (Len reads only). -/
def queueStep (wq : WriteQueue) : QueueOp → WriteQueue
  | .add q => (wq.Add q).2
  | .pop => wq.pop.2
  | .popUnderLock => wq.popUnderLock.2
  | .len => wq
  | .flush => wq.Flush.2

/-- validateOptions from storage.go lines 119-136, checked in order. -/
def validateOptions (opts : Options) : Option String :=
  if opts.poolSize < 1 then
    some "poolSize must be greater than 0"
  else if opts.queueSize < 1 then
    some "queueSize must be greater than 0 to batch writes"
  else if opts.retries < 0 then
    some "retries must be greater than or equal to 0"
  else if opts.tickDuration = none then
    some "tickDuration must be set"
  else if opts.endpoints.length = 0 then
    some "endpoint must not be empty"
  else
    none

/-- The loop of NewStorage lines 150-156: add each rule tenant to the
key set of the pendingQuery map if not already present. -/
def addTenantKeys (keys : List tenantKey) : List TenantRule → List tenantKey
  | [] => keys
  | rule :: rest =>
    if rule.Tenant ∈ keys then
      addTenantKeys keys rest
    else
      addTenantKeys (keys ++ [rule.Tenant]) rest

/-- Key set of the pendingQuery map built by NewStorage: the default
tenant plus the tenant of every configured rule. -/
def pendingQueryKeys (opts : Options) : List tenantKey :=
  addTenantKeys [opts.tenantDefault] opts.tenantRules

/-- NewStorage: validate the options and, on success, build the fixed
tenant key set of the pendingQuery map (the further fields of the
storage carry no state relevant to the claims settled here). -/
def NewStorage (opts : Options) : Except String (List tenantKey) :=
  match validateOptions opts with
  | some msg => .error msg
  | none => .ok (pendingQueryKeys opts)

/-- Whether NewStorage refuses to construct the storage. -/
def newStorageFails (opts : Options) : Bool :=
  match NewStorage opts with
  | .error _ => true
  | .ok _ => false

/-- The rule-iteration of getTenant: first rule whose matcher accepts
the tags wins, otherwise the default tenant. -/
def getTenantLoop (dflt : tenantKey) (query : WriteQuery) :
    List TenantRule → tenantKey
  | [] => dflt
  | rule :: rest =>
    if rule.Filter query.tags then rule.Tenant else getTenantLoop dflt query rest

/-- getTenant from storage.go lines 210-217. -/
def promStorage.getTenant (opts : Options) (query : WriteQuery) : tenantKey :=
  getTenantLoop opts.tenantDefault query opts.tenantRules

/-- The dispatch-loop branch of writeLoop lines 263-271: a query is
dropped when its tenant key is absent from the pendingQuery map. -/
def dispatchDropsQuery (opts : Options) (query : WriteQuery) : Bool :=
  ! decide (promStorage.getTenant opts query ∈ pendingQueryKeys opts)

/-- Outcome of one HTTP attempt as seen by doRequest: either the
transport fails, or a response with the given status code arrives. -/
inductive Attempt
  | transportError
  | status (code : Nat)
deriving DecidableEq

/-- Error values produced by doRequest, write and writeBatch. -/
inductive WriteError
  | transport
  | invalidParams (code : Nat)
  | generic (code : Nat)
  | encodeFail
deriving DecidableEq

/-- doRequest from storage.go lines 488-507: transport failure maps to a
synthetic 503 error; a non-2xx status below 500 and different from 429
yields an invalid-params-classified error; other non-2xx yield a generic
error; 2xx yields no error. -/
def promStorage.doRequest (a : Attempt) : Nat × Option WriteError :=
  match a with
  | .transportError => (503, some .transport)
  | .status code =>
    if code / 100 ≠ 2 then
      if code < 500 ∧ code ≠ 429 then
        (code, some (.invalidParams code))
      else
        (code, some (.generic code))
    else
      (code, none)

/-- Result of the retry loop of write: how many attempts were made, the
last observed status, and the returned error. -/
structure WriteResult where
  attempts : Nat
  status : Nat
  err : Option WriteError
deriving DecidableEq

/-- The body of the retry loop of write (lines 472-482), with the i-th
attempt's outcome supplied by the response sequence: the loop stops
early when the attempt returned no error (2xx) or status 409 (then the
error is cleared); otherwise it backs off and tries again while
iterations remain. -/
def retryLoop (responses : Nat → Attempt) (idx : Nat) : Nat → WriteResult
  | 0 => { attempts := 0, status := 0, err := none }
  | remaining + 1 =>
    if (promStorage.doRequest (responses idx)).2 = none ∨
        (promStorage.doRequest (responses idx)).1 = 409 then
      { attempts := 1, status := (promStorage.doRequest (responses idx)).1,
        err := none }
    else if remaining = 0 then
      { attempts := 1, status := (promStorage.doRequest (responses idx)).1,
        err := (promStorage.doRequest (responses idx)).2 }
    else
      { attempts := (retryLoop responses (idx + 1) remaining).attempts + 1,
        status := (retryLoop responses (idx + 1) remaining).status,
        err := (retryLoop responses (idx + 1) remaining).err }

/-- write (lines 441-486): run the retry loop with retries+1 total
iterations (the Go loop counts i from retries down to 0). -/
def promStorage.write (retries : Int) (responses : Nat → Attempt) : WriteResult :=
  retryLoop responses 0 (retries + 1).toNat

/-- An attempt on which the retry loop does not stop: doRequest returned
an error and the status is not 409. -/
def failingAttempt (a : Attempt) : Prop :=
  (promStorage.doRequest a).2 ≠ none ∧ (promStorage.doRequest a).1 ≠ 409

instance (a : Attempt) : Decidable (failingAttempt a) := by
  unfold failingAttempt
  infer_instance

/-- The tenant re-verification loop at the head of writeBatch (lines
376-397): keep the queries whose reclassified tenant equals the batch
tenant, count the others. -/
def writeBatchFilter (opts : Options) (tenant : tenantKey)
    (correctWq : List WriteQuery) (wrongTenants : Nat) :
    List WriteQuery → List WriteQuery × Nat
  | [] => (correctWq, wrongTenants)
  | wq :: rest =>
    if promStorage.getTenant opts wq = tenant then
      writeBatchFilter opts tenant (correctWq ++ [wq]) wrongTenants rest
    else
      writeBatchFilter opts tenant correctWq (wrongTenants + 1) rest

/-- Observable outcome of one writeBatch call. -/
structure WriteBatchResult where
  kept : List WriteQuery
  wrongTenantInc : Nat
  encodeAttempted : Bool
  sendAttempted : Bool
  batchWriteErrInc : Nat
  err : Option WriteError
deriving DecidableEq

/-- writeBatch (lines 368-416): filter by reclassified tenant, return
success immediately when nothing remains, otherwise encode (external;
its success is a parameter) and send (the send outcome is the result of
write, also a parameter), incrementing batchWriteErr on failure. -/
def promStorage.writeBatch (opts : Options) (tenant : tenantKey)
    (queries : List WriteQuery) (encodeOk : Bool)
    (sendErr : Option WriteError) : WriteBatchResult :=
  if (writeBatchFilter opts tenant [] 0 queries).1.length = 0 then
    { kept := (writeBatchFilter opts tenant [] 0 queries).1,
      wrongTenantInc := (writeBatchFilter opts tenant [] 0 queries).2,
      encodeAttempted := false, sendAttempted := false,
      batchWriteErrInc := 0, err := none }
  else if encodeOk = false then
    { kept := (writeBatchFilter opts tenant [] 0 queries).1,
      wrongTenantInc := (writeBatchFilter opts tenant [] 0 queries).2,
      encodeAttempted := true, sendAttempted := false,
      batchWriteErrInc := 1, err := some .encodeFail }
  else
    match sendErr with
    | some e =>
      { kept := (writeBatchFilter opts tenant [] 0 queries).1,
        wrongTenantInc := (writeBatchFilter opts tenant [] 0 queries).2,
        encodeAttempted := true, sendAttempted := true,
        batchWriteErrInc := 1, err := some e }
    | none =>
      { kept := (writeBatchFilter opts tenant [] 0 queries).1,
        wrongTenantInc := (writeBatchFilter opts tenant [] 0 queries).2,
        encodeAttempted := true, sendAttempted := true,
        batchWriteErrInc := 0, err := none }

/-- flushPendingQueues (lines 219-242): skip empty queues, skip (with a
warning) non-empty queues below the threshold, schedule a Flush for the
rest and return the total length scheduled, together with the scheduled
queues in iteration order. -/
def promStorage.flushPendingQueues (minQueueSizeToFlush : Int) :
    List (tenantKey × WriteQueue) → Nat × List (tenantKey × WriteQueue)
  | [] => (0, [])
  | (t, queue) :: rest =>
    if queue.Len = 0 then
      promStorage.flushPendingQueues minQueueSizeToFlush rest
    else if (queue.Len : Int) < minQueueSizeToFlush then
      promStorage.flushPendingQueues minQueueSizeToFlush rest
    else
      (queue.Len + (promStorage.flushPendingQueues minQueueSizeToFlush rest).1,
        (t, queue) :: (promStorage.flushPendingQueues minQueueSizeToFlush rest).2)

/-- The tick branch of writeLoop (line 285): flush the pending queues
with threshold queueSize / 10. -/
def promStorage.tickFlush (opts : Options)
    (queues : List (tenantKey × WriteQueue)) :
    Nat × List (tenantKey × WriteQueue) :=
  promStorage.flushPendingQueues (opts.queueSize / 10) queues

/-- A config whose tickDuration is present but zero and whose other
fields satisfy every validation check. -/
def c3Opts : Options :=
  { poolSize := 1, queueSize := 1, retries := 0, tickDuration := some 0,
    endpoints := [{ name := "e", address := "http" }],
    tenantDefault := "d", tenantRules := [] }

/-- A demo rule routing tag team=a to tenant A. -/
def demoRuleA : TenantRule :=
  { Filter := fun tags => decide (("team", "a") ∈ tags), Tenant := "A" }

/-- A demo config with one rule and default tenant D. -/
def demoOpts : Options :=
  { poolSize := 1, queueSize := 10, retries := 1, tickDuration := some 1000,
    endpoints := [{ name := "e", address := "http" }],
    tenantDefault := "D", tenantRules := [demoRuleA] }

/-! Helper lemmas about the retry loop. -/

theorem retryLoop_attempts_le (responses : Nat → Attempt) :
    ∀ rem idx, (retryLoop responses idx rem).attempts ≤ rem := by
  intro rem
  induction rem with
  | zero => intro idx; simp [retryLoop]
  | succ n ih =>
    intro idx
    simp only [retryLoop]
    split
    · simp
    · split
      · simp
      · have h := ih (idx + 1)
        simp only []
        omega

theorem retryLoop_attempts_pos (responses : Nat → Attempt) (rem idx : Nat)
    (h : 1 ≤ rem) : 1 ≤ (retryLoop responses idx rem).attempts := by
  match rem, h with
  | n + 1, _ =>
    simp only [retryLoop]
    split
    · simp
    · split
      · simp
      · dsimp only
        omega

theorem retryLoop_all_failing (responses : Nat → Attempt)
    (h : ∀ i, failingAttempt (responses i)) :
    ∀ rem idx, (retryLoop responses idx rem).attempts = rem := by
  intro rem
  induction rem with
  | zero => intro idx; simp [retryLoop]
  | succ n ih =>
    intro idx
    have hf := h idx
    unfold failingAttempt at hf
    simp only [retryLoop]
    rw [if_neg (by tauto)]
    split
    · dsimp only
      omega
    · dsimp only
      have := ih (idx + 1)
      omega

theorem doRequest_4xx (c : Nat) (h400 : 400 ≤ c) (h499 : c ≤ 499)
    (h429 : c ≠ 429) :
    promStorage.doRequest (.status c) = (c, some (.invalidParams c)) := by
  simp only [promStorage.doRequest]
  rw [if_pos (show c / 100 ≠ 2 by omega), if_pos ⟨by omega, h429⟩]

theorem retryLoop_first409 (responses : Nat → Attempt) :
    ∀ j rem idx, j < rem →
      (∀ i, i < j → failingAttempt (responses (idx + i))) →
      responses (idx + j) = .status 409 →
      retryLoop responses idx rem =
        { attempts := j + 1, status := 409, err := none } := by
  intro j
  induction j with
  | zero =>
    intro rem idx hlt hfail h409
    have h' : responses idx = .status 409 := by simpa using h409
    match rem, hlt with
    | n + 1, _ =>
      simp only [retryLoop, h', promStorage.doRequest]
      norm_num
  | succ j ih =>
    intro rem idx hlt hfail h409
    match rem, hlt with
    | n + 1, _ =>
      have hf0 : failingAttempt (responses idx) := by
        have h := hfail 0 (Nat.succ_pos j)
        simpa using h
      obtain ⟨h1, h2⟩ := hf0
      have hn : n ≠ 0 := by omega
      simp only [retryLoop]
      rw [if_neg (by tauto), if_neg hn]
      have hrec := ih n (idx + 1) (by omega)
        (fun i hi => by
          have h := hfail (i + 1) (by omega)
          rw [show idx + 1 + i = idx + (i + 1) by omega]
          exact h)
        (by rw [show idx + 1 + j = idx + (j + 1) by omega]; exact h409)
      rw [hrec]

theorem retryLoop_all_4xx_err (responses : Nat → Attempt)
    (h4 : ∀ i, ∃ c, responses i = .status c ∧ 400 ≤ c ∧ c ≤ 499 ∧
      c ≠ 429 ∧ c ≠ 409) :
    ∀ rem idx, 1 ≤ rem →
      ∃ d, (retryLoop responses idx rem).err = some (.invalidParams d) ∧
        400 ≤ d ∧ d ≤ 499 := by
  intro rem
  induction rem with
  | zero => intro idx h; omega
  | succ n ih =>
    intro idx _
    obtain ⟨c, hc, h400, h499, h429, h409⟩ := h4 idx
    have hdo : promStorage.doRequest (responses idx) =
        (c, some (.invalidParams c)) := by
      rw [hc]; exact doRequest_4xx c h400 h499 h429
    simp only [retryLoop, hdo]
    rw [if_neg (by simp [h409])]
    split
    · exact ⟨c, rfl, h400, h499⟩
    · obtain ⟨d, hd, hd1, hd2⟩ := ih (idx + 1) (by omega)
      exact ⟨d, by dsimp only; exact hd, hd1, hd2⟩

theorem all_4xx_failing (responses : Nat → Attempt)
    (h4 : ∀ i, ∃ c, responses i = .status c ∧ 400 ≤ c ∧ c ≤ 499 ∧
      c ≠ 429 ∧ c ≠ 409) :
    ∀ i, failingAttempt (responses i) := by
  intro i
  obtain ⟨c, hc, h400, h499, h429, h409⟩ := h4 i
  have hdo : promStorage.doRequest (responses i) =
      (c, some (.invalidParams c)) := by
    rw [hc]; exact doRequest_4xx c h400 h499 h429
  unfold failingAttempt
  rw [hdo]
  exact ⟨by simp, by simpa using h409⟩

theorem writeBatch_sendErr_none_inc (opts : Options) (tenant : tenantKey)
    (queries : List WriteQuery) :
    (promStorage.writeBatch opts tenant queries true none).batchWriteErrInc
      = 0 := by
  unfold promStorage.writeBatch
  split
  · rfl
  · simp

/-- C1 (amended): an attempt yielding a 4xx status other than 429 does NOT
end the retry loop of write: only a 2xx or a 409 terminates it early (the
409 itself being a 4xx counted as success). The error produced by such an
attempt is invalid-params-classified, and when every attempt yields a 4xx
status other than 429 and 409, write performs the full retries + 1
attempts and returns an invalid-params-classified error. -/
theorem c1_write_4xx_is_retried (retries : Int) (responses : Nat → Attempt)
    (hr : 0 ≤ retries)
    (h4 : ∀ i, ∃ c, responses i = .status c ∧ 400 ≤ c ∧ c ≤ 499 ∧
      c ≠ 429 ∧ c ≠ 409) :
    (promStorage.write retries responses).attempts = retries.toNat + 1 ∧
    ∃ d, (promStorage.write retries responses).err =
        some (.invalidParams d) ∧ 400 ≤ d ∧ d ≤ 499 := by
  constructor
  · have h := retryLoop_all_failing responses (all_4xx_failing responses h4)
      ((retries + 1).toNat) 0
    unfold promStorage.write
    omega
  · exact retryLoop_all_4xx_err responses h4 ((retries + 1).toNat) 0 (by omega)

theorem c1_write_4xx_is_retried_witness :
    (promStorage.write 1 (fun _ => Attempt.status 400)).attempts = 2 := by
  have h := (c1_write_4xx_is_retried 1 (fun _ => Attempt.status 400)
    (by decide)
    (fun _ => ⟨400, rfl, by decide, by decide, by decide, by decide⟩)).1
  simpa using h

/-- C1 counterexample: with retries = 1 and every response a plain 400,
write performs two attempts, not exactly one as the claim demands for a
first response with a 4xx status other than 429. -/
theorem c1_counterexample :
    (promStorage.write 1 (fun _ => Attempt.status 400)).attempts = 2 ∧
    ¬ (promStorage.write 1 (fun _ => Attempt.status 400)).attempts = 1 := by
  decide

/-- C4: for every configured retries value r at least 0, write never makes
more than r + 1 attempts, and when every attempt fails (doRequest returns
an error and the status is not 409, as with a transport that always
returns 5xx) write makes exactly r + 1 attempts. -/
theorem c4_retry_budget (retries : Int) (responses : Nat → Attempt)
    (hr : 0 ≤ retries) :
    (promStorage.write retries responses).attempts ≤ retries.toNat + 1 ∧
    ((∀ i, failingAttempt (responses i)) →
      (promStorage.write retries responses).attempts = retries.toNat + 1) := by
  constructor
  · have h := retryLoop_attempts_le responses ((retries + 1).toNat) 0
    unfold promStorage.write
    omega
  · intro hfail
    have h := retryLoop_all_failing responses hfail ((retries + 1).toNat) 0
    unfold promStorage.write
    omega

theorem c4_retry_budget_witness :
    (promStorage.write 2 (fun _ => Attempt.status 500)).attempts = 3 := by
  have h := (c4_retry_budget 2 (fun _ => Attempt.status 500) (by decide)).2
    (fun _ => by decide)
  simpa using h

/-- C5: if the first j attempts all fail and attempt j returns status 409,
the retry loop of write stops right there (j + 1 attempts), write returns
no error, and the batch_write_err counter of writeBatch is not
incremented for a batch whose send returned this result. -/
theorem c5_first_409_success (retries : Int) (responses : Nat → Attempt)
    (j : Nat) (hr : 0 ≤ retries) (hj : (j : Int) ≤ retries)
    (hfail : ∀ i, i < j → failingAttempt (responses i))
    (h409 : responses j = .status 409) :
    (promStorage.write retries responses).attempts = j + 1 ∧
    (promStorage.write retries responses).err = none ∧
    ∀ (opts : Options) (tenant : tenantKey) (queries : List WriteQuery),
      (promStorage.writeBatch opts tenant queries true
          (promStorage.write retries responses).err).batchWriteErrInc = 0 := by
  have hlt : j < (retries + 1).toNat := by omega
  have hrec := retryLoop_first409 responses j ((retries + 1).toNat) 0 hlt
    (fun i hi => by simpa using hfail i hi)
    (by simpa using h409)
  unfold promStorage.write
  rw [hrec]
  exact ⟨rfl, rfl, fun opts tenant queries =>
    writeBatch_sendErr_none_inc opts tenant queries⟩

theorem c5_first_409_success_witness :
    (promStorage.write 3
        (fun i => if i < 2 then Attempt.status 500 else Attempt.status 409)).attempts = 3 ∧
    (promStorage.write 3
        (fun i => if i < 2 then Attempt.status 500 else Attempt.status 409)).err = none := by
  have h := c5_first_409_success 3
    (fun i => if i < 2 then Attempt.status 500 else Attempt.status 409) 2
    (by decide) (by decide)
    (fun i hi => by
      simp only [if_pos hi]
      decide)
    (by decide)
  exact ⟨h.1, h.2.1⟩

/-- C2: Add on a full queue (length at least capacity) returns exactly the
pre-overflow buffer and resets to a fresh empty buffer with the same
tenant and capacity; the incoming query (not already in the buffer) is in
neither the returned batch nor the new buffer. Add on a non-full queue
appends the query and returns none. -/
theorem c2_add (wq : WriteQueue) (q : WriteQuery) (hq : q ∉ wq.queries) :
    ((wq.queries.length : Int) ≥ wq.capacity →
      wq.Add q = (some wq.queries, { wq with queries := [] }) ∧
      q ∉ wq.queries ∧
      (wq.Add q).2.t = wq.t ∧ (wq.Add q).2.capacity = wq.capacity ∧
      (wq.Add q).2.queries = []) ∧
    ((wq.queries.length : Int) < wq.capacity →
      wq.Add q = (none, { wq with queries := wq.queries ++ [q] })) := by
  constructor
  · intro h
    unfold WriteQueue.Add WriteQueue.popUnderLock
    rw [if_pos h]
    exact ⟨rfl, hq, rfl, rfl, rfl⟩
  · intro h
    unfold WriteQueue.Add
    rw [if_neg (by omega)]

theorem c2_add_witness :
    WriteQueue.Add ⟨"d", 2, [⟨[("a", "1")]⟩, ⟨[("a", "2")]⟩]⟩ ⟨[("a", "3")]⟩
      = (some [⟨[("a", "1")]⟩, ⟨[("a", "2")]⟩], ⟨"d", 2, []⟩) ∧
    WriteQueue.Add ⟨"d", 2, [⟨[("a", "1")]⟩]⟩ ⟨[("a", "3")]⟩
      = (none, ⟨"d", 2, [⟨[("a", "1")]⟩, ⟨[("a", "3")]⟩]⟩) := by
  constructor
  · exact ((c2_add ⟨"d", 2, [⟨[("a", "1")]⟩, ⟨[("a", "2")]⟩]⟩ ⟨[("a", "3")]⟩
      (by decide)).1 (by decide)).1
  · exact (c2_add ⟨"d", 2, [⟨[("a", "1")]⟩]⟩ ⟨[("a", "3")]⟩
      (by decide)).2 (by decide)

theorem queueStep_inv (wq : WriteQueue) (op : QueueOp)
    (h : (wq.queries.length : Int) ≤ wq.capacity) (h0 : 0 ≤ wq.capacity) :
    (queueStep wq op).t = wq.t ∧
    (queueStep wq op).capacity = wq.capacity ∧
    ((queueStep wq op).queries.length : Int) ≤ wq.capacity := by
  cases op with
  | add q =>
    simp only [queueStep, WriteQueue.Add]
    split
    · exact ⟨rfl, rfl, by simpa using h0⟩
    · refine ⟨rfl, rfl, ?_⟩
      rename_i hlt
      simp only [List.length_append, List.length_cons, List.length_nil]
      push_cast
      omega
  | pop => exact ⟨rfl, rfl, by simpa using h0⟩
  | popUnderLock => exact ⟨rfl, rfl, by simpa using h0⟩
  | len => exact ⟨rfl, rfl, h⟩
  | flush => exact ⟨rfl, rfl, by simpa using h0⟩

theorem foldl_queueStep_inv (ops : List QueueOp) :
    ∀ wq : WriteQueue, (wq.queries.length : Int) ≤ wq.capacity →
      0 ≤ wq.capacity →
      (ops.foldl queueStep wq).t = wq.t ∧
      (ops.foldl queueStep wq).capacity = wq.capacity ∧
      ((ops.foldl queueStep wq).queries.length : Int) ≤ wq.capacity := by
  induction ops with
  | nil => intro wq h h0; exact ⟨rfl, rfl, h⟩
  | cons op rest ih =>
    intro wq h h0
    obtain ⟨ht, hc, hl⟩ := queueStep_inv wq op h h0
    obtain ⟨a, b, c⟩ := ih (queueStep wq op) (by rw [hc]; exact hl)
      (by rw [hc]; exact h0)
    refine ⟨?_, ?_, ?_⟩
    · rw [List.foldl_cons, a, ht]
    · rw [List.foldl_cons, b, hc]
    · rw [List.foldl_cons]
      rw [hc] at c
      exact c

/-- C7: a queue constructed with capacity c at least 1 keeps the
invariant 0 at most Len at most c after any sequence of operations
(Add, pop, popUnderLock, Len, Flush), with capacity preserved. -/
theorem c7_queue_invariant (t : tenantKey) (c : Int) (hc : 1 ≤ c)
    (ops : List QueueOp) :
    (ops.foldl queueStep (NewWriteQueue t c)).capacity = c ∧
    0 ≤ ((ops.foldl queueStep (NewWriteQueue t c)).queries.length : Int) ∧
    ((ops.foldl queueStep (NewWriteQueue t c)).queries.length : Int) ≤ c := by
  obtain ⟨ht, hcap, hlen⟩ := foldl_queueStep_inv ops (NewWriteQueue t c)
    (by simp only [NewWriteQueue, List.length_nil, Nat.cast_zero]; omega)
    (by simp only [NewWriteQueue]; omega)
  exact ⟨hcap, by omega, hlen⟩

theorem c7_queue_invariant_witness :
    ([QueueOp.add ⟨[("a", "1")]⟩, QueueOp.add ⟨[("a", "2")]⟩,
        QueueOp.add ⟨[("a", "3")]⟩, QueueOp.pop].foldl queueStep
        (NewWriteQueue "d" 2)).capacity = 2 ∧
    0 ≤ (([QueueOp.add ⟨[("a", "1")]⟩, QueueOp.add ⟨[("a", "2")]⟩,
        QueueOp.add ⟨[("a", "3")]⟩, QueueOp.pop].foldl queueStep
        (NewWriteQueue "d" 2)).queries.length : Int) ∧
    (([QueueOp.add ⟨[("a", "1")]⟩, QueueOp.add ⟨[("a", "2")]⟩,
        QueueOp.add ⟨[("a", "3")]⟩, QueueOp.pop].foldl queueStep
        (NewWriteQueue "d" 2)).queries.length : Int) ≤ 2 :=
  c7_queue_invariant "d" 2 (by decide)
    [QueueOp.add ⟨[("a", "1")]⟩, QueueOp.add ⟨[("a", "2")]⟩,
      QueueOp.add ⟨[("a", "3")]⟩, QueueOp.pop]

/-- C3 counterexample: a config whose tickDuration is present but equal
to 0 (not a positive duration) passes validateOptions, and NewStorage
constructs the storage instead of returning an error, contradicting the
claim that such a config is rejected. -/
theorem c3_counterexample :
    c3Opts.tickDuration = some 0 ∧ ¬ (0 : Int) > 0 ∧
    validateOptions c3Opts = none ∧ NewStorage c3Opts = .ok ["d"] := by
  refine ⟨rfl, by decide, rfl, rfl⟩

/-- C3 (amended): NewStorage returns an error and refuses to construct
the storage if and only if poolSize less than 1, or queueSize less than
1, or retries negative, or tickDuration nil (a present but non-positive
tickDuration is accepted), or the endpoints list empty. -/
theorem c3_validation_iff (opts : Options) :
    newStorageFails opts = true ↔
      (opts.poolSize < 1 ∨ opts.queueSize < 1 ∨ opts.retries < 0 ∨
        opts.tickDuration = none ∨ opts.endpoints.length = 0) := by
  unfold newStorageFails NewStorage validateOptions
  split_ifs with h1 h2 h3 h4 h5 <;> simp_all

theorem c3_validation_iff_witness :
    newStorageFails
      { poolSize := 0, queueSize := 1, retries := 0, tickDuration := some 1,
        endpoints := [{ name := "e", address := "http" }],
        tenantDefault := "d", tenantRules := [] } = true :=
  (c3_validation_iff _).mpr (Or.inl (by decide))

theorem writeBatchFilter_eq (opts : Options) (tenant : tenantKey) :
    ∀ (queries acc : List WriteQuery) (w : Nat),
      writeBatchFilter opts tenant acc w queries =
        (acc ++ queries.filter
            (fun q => decide (promStorage.getTenant opts q = tenant)),
          w + queries.countP
            (fun q => decide (¬ promStorage.getTenant opts q = tenant))) := by
  intro queries
  induction queries with
  | nil => intro acc w; simp [writeBatchFilter]
  | cons wq rest ih =>
    intro acc w
    by_cases h : promStorage.getTenant opts wq = tenant
    · simp only [writeBatchFilter, if_pos h, ih, List.filter_cons,
        List.countP_cons, h]
      simp
    · simp only [writeBatchFilter, if_neg h, ih, List.filter_cons,
        List.countP_cons, h]
      simp [h]
      omega

theorem writeBatch_kept_eq (opts : Options) (tenant : tenantKey)
    (queries : List WriteQuery) (encodeOk : Bool)
    (sendErr : Option WriteError) :
    (promStorage.writeBatch opts tenant queries encodeOk sendErr).kept =
      (writeBatchFilter opts tenant [] 0 queries).1 := by
  unfold promStorage.writeBatch
  split
  · rfl
  · split
    · rfl
    · split <;> rfl

theorem writeBatch_wrong_eq (opts : Options) (tenant : tenantKey)
    (queries : List WriteQuery) (encodeOk : Bool)
    (sendErr : Option WriteError) :
    (promStorage.writeBatch opts tenant queries encodeOk sendErr).wrongTenantInc
      = (writeBatchFilter opts tenant [] 0 queries).2 := by
  unfold promStorage.writeBatch
  split
  · rfl
  · split
    · rfl
    · split <;> rfl

/-- C6: writeBatch retains exactly the queries whose reclassified tenant
equals the batch tenant, in order; the wrong_tenant counter grows by the
number of discarded queries; and when nothing remains after filtering it
returns success without attempting to encode or send. -/
theorem c6_writeBatch_filter (opts : Options) (tenant : tenantKey)
    (queries : List WriteQuery) (encodeOk : Bool)
    (sendErr : Option WriteError) :
    (promStorage.writeBatch opts tenant queries encodeOk sendErr).kept =
      queries.filter (fun q => decide (promStorage.getTenant opts q = tenant)) ∧
    (promStorage.writeBatch opts tenant queries encodeOk sendErr).wrongTenantInc
      = queries.countP
          (fun q => decide (¬ promStorage.getTenant opts q = tenant)) ∧
    (queries.filter (fun q => decide (promStorage.getTenant opts q = tenant))
        = [] →
      promStorage.writeBatch opts tenant queries encodeOk sendErr =
        { kept := [],
          wrongTenantInc := queries.countP
            (fun q => decide (¬ promStorage.getTenant opts q = tenant)),
          encodeAttempted := false, sendAttempted := false,
          batchWriteErrInc := 0, err := none }) := by
  have hf := writeBatchFilter_eq opts tenant queries [] 0
  have h1 := congrArg Prod.fst hf
  have h2 := congrArg Prod.snd hf
  dsimp only at h1 h2
  rw [List.nil_append] at h1
  rw [Nat.zero_add] at h2
  refine ⟨?_, ?_, ?_⟩
  · rw [writeBatch_kept_eq, h1]
  · rw [writeBatch_wrong_eq, h2]
  · intro hempty
    unfold promStorage.writeBatch
    rw [if_pos (by rw [h1, hempty]; rfl)]
    rw [h1, h2, hempty]

theorem c6_writeBatch_filter_witness :
    promStorage.writeBatch demoOpts "X" [⟨[("team", "c")]⟩] true none =
      { kept := [], wrongTenantInc := 1, encodeAttempted := false,
        sendAttempted := false, batchWriteErrInc := 0, err := none } := by
  have h := (c6_writeBatch_filter demoOpts "X" [⟨[("team", "c")]⟩]
    true none).2.2 (by decide)
  rw [h]
  decide

theorem flushPendingQueues_eq (threshold : Int) :
    ∀ queues : List (tenantKey × WriteQueue),
      promStorage.flushPendingQueues threshold queues =
        (((queues.filter (fun p =>
            decide (0 < p.2.Len ∧ threshold ≤ (p.2.Len : Int)))).map
              (fun p => p.2.Len)).sum,
          queues.filter (fun p =>
            decide (0 < p.2.Len ∧ threshold ≤ (p.2.Len : Int)))) := by
  intro queues
  induction queues with
  | nil => simp [promStorage.flushPendingQueues]
  | cons hd rest ih =>
    obtain ⟨t, queue⟩ := hd
    simp only [promStorage.flushPendingQueues]
    by_cases h0 : queue.Len = 0
    · rw [if_pos h0, ih]
      have hp : ¬ (0 < queue.Len ∧ threshold ≤ (queue.Len : Int)) := by omega
      simp [List.filter_cons, hp]
    · rw [if_neg h0]
      by_cases h1 : (queue.Len : Int) < threshold
      · rw [if_pos h1, ih]
        have hp : ¬ (0 < queue.Len ∧ threshold ≤ (queue.Len : Int)) := by omega
        simp [List.filter_cons, hp]
      · rw [if_neg h1, ih]
        have hp : 0 < queue.Len ∧ threshold ≤ (queue.Len : Int) := by omega
        simp [List.filter_cons, hp]

/-- C8: flushPendingQueues schedules exactly the non-empty queues whose
length reaches the threshold (skipping empty queues and, with a warning,
non-empty queues below it), returns the sum of the scheduled lengths,
and the tick path invokes it with threshold queueSize / 10. -/
theorem c8_flushPendingQueues (opts : Options) (threshold : Int)
    (queues : List (tenantKey × WriteQueue)) :
    (promStorage.flushPendingQueues threshold queues).2 =
      queues.filter (fun p =>
        decide (0 < p.2.Len ∧ threshold ≤ (p.2.Len : Int))) ∧
    (promStorage.flushPendingQueues threshold queues).1 =
      (((promStorage.flushPendingQueues threshold queues).2).map
        (fun p => p.2.Len)).sum ∧
    promStorage.tickFlush opts queues =
      promStorage.flushPendingQueues (opts.queueSize / 10) queues := by
  rw [flushPendingQueues_eq threshold queues]
  exact ⟨rfl, rfl, rfl⟩

theorem getTenantLoop_no_match (dflt : tenantKey) (q : WriteQuery) :
    ∀ rules : List TenantRule, (∀ r ∈ rules, r.Filter q.tags = false) →
      getTenantLoop dflt q rules = dflt := by
  intro rules
  induction rules with
  | nil => intro _; rfl
  | cons rule rest ih =>
    intro h
    simp only [getTenantLoop]
    rw [if_neg (by simp [h rule (by simp)])]
    exact ih (fun r hr => h r (by simp [hr]))

theorem getTenantLoop_first_match (dflt : tenantKey) (q : WriteQuery)
    (rule : TenantRule) :
    ∀ pre post, (∀ r ∈ pre, r.Filter q.tags = false) →
      rule.Filter q.tags = true →
      getTenantLoop dflt q (pre ++ rule :: post) = rule.Tenant := by
  intro pre
  induction pre with
  | nil => intro post _ hm; simp [getTenantLoop, hm]
  | cons r rest ih =>
    intro post h hm
    simp only [List.cons_append, getTenantLoop]
    rw [if_neg (by simp [h r (by simp)])]
    exact ih post (fun r' hr => h r' (by simp [hr])) hm

/-- C9: getTenant returns the tenant of the first rule, in declaration
order, whose matcher accepts the query tags, and the default tenant when
no rule matches; it is a pure function, so repeated calls agree. -/
theorem c9_getTenant_first_match (opts : Options) (q : WriteQuery) :
    ((∀ r ∈ opts.tenantRules, r.Filter q.tags = false) →
      promStorage.getTenant opts q = opts.tenantDefault) ∧
    (∀ pre rule post, opts.tenantRules = pre ++ rule :: post →
      (∀ r ∈ pre, r.Filter q.tags = false) → rule.Filter q.tags = true →
      promStorage.getTenant opts q = rule.Tenant) ∧
    promStorage.getTenant opts q = promStorage.getTenant opts q := by
  refine ⟨?_, ?_, rfl⟩
  · intro h
    exact getTenantLoop_no_match opts.tenantDefault q opts.tenantRules h
  · intro pre rule post heq hpre hm
    unfold promStorage.getTenant
    rw [heq]
    exact getTenantLoop_first_match opts.tenantDefault q rule pre post hpre hm

theorem c9_getTenant_first_match_witness :
    promStorage.getTenant demoOpts ⟨[("team", "a")]⟩ = "A" ∧
    promStorage.getTenant demoOpts ⟨[("team", "c")]⟩ = "D" := by
  constructor
  · exact (c9_getTenant_first_match demoOpts ⟨[("team", "a")]⟩).2.1 []
      demoRuleA [] rfl (by simp) (by decide)
  · exact (c9_getTenant_first_match demoOpts ⟨[("team", "c")]⟩).1
      (by
        intro r hr
        simp [demoOpts] at hr
        subst hr
        decide)

theorem addTenantKeys_mem (x : tenantKey) :
    ∀ (rules : List TenantRule) (keys : List tenantKey),
      x ∈ keys → x ∈ addTenantKeys keys rules := by
  intro rules
  induction rules with
  | nil => intro keys h; exact h
  | cons rule rest ih =>
    intro keys h
    simp only [addTenantKeys]
    split
    · exact ih keys h
    · exact ih _ (by simp [h])

theorem addTenantKeys_rule_mem :
    ∀ (rules : List TenantRule) (keys : List tenantKey) (rule : TenantRule),
      rule ∈ rules → rule.Tenant ∈ addTenantKeys keys rules := by
  intro rules
  induction rules with
  | nil => intro keys rule h; simp at h
  | cons hd rest ih =>
    intro keys rule h
    rcases List.mem_cons.mp h with h1 | h2
    · subst h1
      simp only [addTenantKeys]
      split
      · exact addTenantKeys_mem rule.Tenant rest keys (by assumption)
      · exact addTenantKeys_mem rule.Tenant rest _ (by simp)
    · simp only [addTenantKeys]
      split
      · exact ih keys rule h2
      · exact ih _ rule h2

theorem getTenantLoop_mem (dflt : tenantKey) (q : WriteQuery) :
    ∀ rules : List TenantRule,
      getTenantLoop dflt q rules = dflt ∨
      ∃ rule, rule ∈ rules ∧ getTenantLoop dflt q rules = rule.Tenant := by
  intro rules
  induction rules with
  | nil => left; rfl
  | cons rule rest ih =>
    simp only [getTenantLoop]
    split
    · right; exact ⟨rule, by simp, rfl⟩
    · rcases ih with h | ⟨r, hr, he⟩
      · left; exact h
      · right; exact ⟨r, by simp [hr], he⟩

/-- C10: the tenant key getTenant assigns to any query is always among
the keys of the pendingQuery map NewStorage builds (the default tenant
plus every rule tenant), so the no-tenant drop branch of the dispatch
loop is unreachable and never increments no_tenant_found or
dropped_writes. -/
theorem c10_tenant_always_pending (opts : Options) (q : WriteQuery) :
    promStorage.getTenant opts q ∈ pendingQueryKeys opts ∧
    dispatchDropsQuery opts q = false := by
  have hmem : promStorage.getTenant opts q ∈ pendingQueryKeys opts := by
    unfold promStorage.getTenant pendingQueryKeys
    rcases getTenantLoop_mem opts.tenantDefault q opts.tenantRules with
      h | ⟨r, hr, he⟩
    · rw [h]
      exact addTenantKeys_mem opts.tenantDefault opts.tenantRules
        [opts.tenantDefault] (by simp)
    · rw [he]
      exact addTenantKeys_rule_mem opts.tenantRules [opts.tenantDefault] r hr
  exact ⟨hmem, by simp [dispatchDropsQuery, hmem]⟩
